import Mathlib

/-!
Verification of the creeper snapshot pipeline against its specification.

The definitions below are a shallow embedding of the JavaScript sources:
`src/app.js` (generateGrid variant), `src/unnamed/part_001`
(generateGridSVG.js, the standalone generator), `src/unnamed/part_002`
(the retrying app.js variant whose core is `snapshotGrid`) and
`src/unnamed/part_003` (two earlier app.js variants).  Pixel arithmetic
uses exact rationals in place of JS doubles; the geometric and ordering
facts proved here do not depend on floating-point rounding.
-/

/-- Canvas side in pixels; `const SIZE = 2048` in every variant. -/
def SIZE : Nat := 2048

/-- Cell side; `const GRID = SIZE / 2` (each cell is 1024 x 1024). -/
def GRID : Nat := SIZE / 2

/-- Inner padding of a cell in part_002 (`const BORDER = 8`). -/
def BORDER : Nat := 8

/-- Inner padding in part_001 and the first part_003 variant (`const BORDER = 20`). -/
def BORDERSvg : Nat := 20

/-- Snapshot period; `const INTERVAL = 1000 * 60 * 5` (5 minutes). -/
def INTERVAL : Nat := 1000 * 60 * 5

/-- An axis-aligned pixel rectangle given by origin and extent. -/
structure Rect where
  x : Nat
  y : Nat
  w : Nat
  h : Nat
deriving DecidableEq, Repr

/-- Membership of a pixel coordinate in a rectangle (half-open on both axes). -/
def Rect.Mem (r : Rect) (q : Nat × Nat) : Prop :=
  r.x ≤ q.1 ∧ q.1 < r.x + r.w ∧ r.y ≤ q.2 ∧ q.2 < r.y + r.h

instance (r : Rect) (q : Nat × Nat) : Decidable (r.Mem q) := by
  unfold Rect.Mem; infer_instance

/-- Two rectangles share no pixel. -/
def RectDisjoint (r s : Rect) : Prop :=
  ∀ q : Nat × Nat, r.Mem q → s.Mem q → False

/-- Destination inner region of slot `i` with border `b`:
`dx = (i % 2) * GRID + b`, `dy = (i / 2) * GRID + b`,
`inner = GRID - 2 * b` (part_002 lines 95-97, part_001 lines 32-34). -/
def innerRect (b i : Nat) : Rect :=
  ⟨(i % 2) * GRID + b, (i / 2) * GRID + b, GRID - 2 * b, GRID - 2 * b⟩

/-- Abstract canvas: a color value per pixel coordinate. -/
def Canvas : Type := Nat × Nat → Nat

/-- Drawing the tile content for slot `i` writes only inside its inner region. -/
def paintTile (b : Nat) (tiles : Fin 4 → Canvas) (i : Fin 4) (c : Canvas) : Canvas :=
  fun q => if (innerRect b (i : Nat)).Mem q then tiles i q else c q

/-- Paint a list of slots in order (later list entries are painted first,
matching a right fold). -/
def paintList (b : Nat) (tiles : Fin 4 → Canvas) (l : List (Fin 4)) (c : Canvas) : Canvas :=
  l.foldr (fun i acc => paintTile b tiles i acc) c

lemma innerRect_disjoint_aux (b i j : Nat) (hi : i < 4) (hj : j < 4) (hij : i ≠ j) :
    RectDisjoint (innerRect b i) (innerRect b j) := by
  rintro ⟨x, y⟩ h1 h2
  simp only [innerRect, Rect.Mem, GRID, SIZE] at h1 h2
  interval_cases i <;> interval_cases j <;> omega

lemma paintTile_comm (b : Nat) (tiles : Fin 4 → Canvas) (i j : Fin 4) (c : Canvas) :
    paintTile b tiles i (paintTile b tiles j c) = paintTile b tiles j (paintTile b tiles i c) := by
  by_cases hij : i = j
  · subst hij
    funext q
    by_cases h : (innerRect b (i : Nat)).Mem q <;> simp [paintTile, h]
  · funext q
    by_cases h1 : (innerRect b (i : Nat)).Mem q <;>
      by_cases h2 : (innerRect b (j : Nat)).Mem q <;>
        simp [paintTile, h1, h2]
    exact absurd h2
      (fun h2 => innerRect_disjoint_aux b i j i.isLt j.isLt
        (fun hv => hij (Fin.val_injective hv)) q h1 h2)

lemma foldr_comm_perm {α β : Type} (f : α → β → β)
    (hf : ∀ a b c, f a (f b c) = f b (f a c)) :
    ∀ {l₁ l₂ : List α}, l₁.Perm l₂ → ∀ c, l₁.foldr f c = l₂.foldr f c := by
  intro l₁ l₂ h
  induction h with
  | nil => intro c; rfl
  | cons x _ ih => intro c; simp only [List.foldr_cons, ih c]
  | swap x y l => intro c; simp only [List.foldr_cons, hf]
  | trans _ _ ih1 ih2 => intro c; rw [ih1 c, ih2 c]

/-- C7: for every slot index in {0,1,2,3} the destination rectangle is
`col = i mod 2`, `row = i div 2`, origin `(col * (S/2) + b, row * (S/2) + b)`
with side `S/2 - 2b` (inset by the border on all four sides); the four inner
regions are pairwise disjoint; and painting the slots in any order yields the
same final canvas. -/
theorem slot_geometry_disjoint :
    (∀ b i : Nat, innerRect b i =
      ⟨(i % 2) * (SIZE / 2) + b, (i / 2) * (SIZE / 2) + b,
        SIZE / 2 - 2 * b, SIZE / 2 - 2 * b⟩) ∧
    (∀ b i j : Nat, i < 4 → j < 4 → i ≠ j →
      RectDisjoint (innerRect b i) (innerRect b j)) ∧
    (∀ (b : Nat) (tiles : Fin 4 → Canvas) (l₁ l₂ : List (Fin 4)),
      l₁.Perm l₂ → ∀ c, paintList b tiles l₁ c = paintList b tiles l₂ c) := by
  refine ⟨fun b i => rfl, innerRect_disjoint_aux, ?_⟩
  intro b tiles l₁ l₂ h c
  exact foldr_comm_perm _ (paintTile_comm b tiles) h c

/-- Witness for C7: slots 0 and 1 have disjoint inner regions at border 8,
and painting slots 0 then 1 equals painting 1 then 0. -/
theorem slot_geometry_disjoint_witness :
    RectDisjoint (innerRect 8 0) (innerRect 8 1) ∧
    paintList 8 (fun _ _ => 7) [0, 1] (fun _ => 0) =
      paintList 8 (fun _ _ => 7) [1, 0] (fun _ => 0) :=
  ⟨slot_geometry_disjoint.2.1 8 0 1 (by decide) (by decide) (by decide),
   slot_geometry_disjoint.2.2 8 (fun _ _ => 7) [0, 1] [1, 0] (by decide) (fun _ => 0)⟩

/-! ## Scheduler (part_002 lines 215-217, src/app.js lines 84-98)

Both variants run `snapshotGrid()` once at startup and then
`setInterval(snapshotGrid, INTERVAL)`.  Neither keeps a run-in-progress
flag, so every timer trigger starts a run unconditionally.  A run started
at trigger `n` occupies `[n * INTERVAL, n * INTERVAL + dur)` where `dur`
is the run duration. -/

/-- Trigger instants: the immediate startup run at 0, then one every INTERVAL. -/
def triggerTime (n : Nat) : Nat := n * INTERVAL

/-- Whether the run started by trigger `n` (duration `dur`) is active at time `t`.
The code starts a run at every trigger: there is no guard consulted here. -/
def runActive (dur n t : Nat) : Bool :=
  decide (triggerTime n ≤ t ∧ t < triggerTime n + dur)

/-- Number of runs among the first `N` triggers that are active at time `t`. -/
def concurrentRuns (dur t N : Nat) : Nat :=
  ((List.range N).filter (fun n => runActive dur n t)).length

/-- Counterexample to C3: with a run duration of 10 minutes, at t = 5 minutes
both the startup run and the first interval run are active, so the scheduler
does allow two overlapping runs — there is no run-in-progress guard. -/
theorem overlapping_runs_cex : 1 < concurrentRuns 600000 300000 2 := by decide

/-- C3 amended: the pipeline runs once immediately (trigger at t = 0) and then
at a fixed 5-minute interval, but no run-in-progress guard exists: every
trigger starts a run, and whenever a run outlasts the interval two runs are
concurrently active at the next trigger instant. -/
theorem scheduler_no_guard :
    triggerTime 0 = 0 ∧
    INTERVAL = 300000 ∧
    (∀ n, triggerTime (n + 1) = triggerTime n + INTERVAL) ∧
    (∀ dur, INTERVAL < dur → 2 ≤ concurrentRuns dur INTERVAL 2) := by
  refine ⟨rfl, rfl, fun n => by simp [triggerTime, Nat.succ_mul], ?_⟩
  intro dur hdur
  have h0 : runActive dur 0 INTERVAL = true := by
    simp only [runActive, triggerTime, Nat.zero_mul, decide_eq_true_eq]
    omega
  have h1 : runActive dur 1 INTERVAL = true := by
    simp only [runActive, triggerTime, Nat.one_mul, decide_eq_true_eq]
    omega
  simp [concurrentRuns, List.range_succ, h0, h1]

/-- Witness for C3: at run duration 600000 ms the amended bound applies. -/
theorem scheduler_no_guard_witness : 2 ≤ concurrentRuns 600000 INTERVAL 2 :=
  scheduler_no_guard.2.2.2 600000 (by decide)

/-! ## SnapshotWriter (part_002 lines 198-206)

`snapshotGrid` ends with a recursive `fs.mkdirSync` of the snapshots
directory followed by an `fs.writeFileSync` of the JPEG buffer onto
snapshots/creeper.jpg.  The write goes straight to the canonical published path;
no temporary file and no rename appear anywhere in the repository.
`fs.writeFileSync` truncates and then appends, so a concurrent reader can
observe any prefix of the new content. -/

/-- A file path, as its character list. -/
abbrev PathName := List Char

/-- Byte content of a file. -/
abbrev Bytes := List Nat

/-- Filesystem operations issued by the writer. -/
inductive FsOp where
  | mkdirRecursive (p : PathName)
  | writeFile (p : PathName) (content : Bytes)
  | rename (src dst : PathName)
deriving DecidableEq

/-- The output directory, named snapshots. -/
def snapshotsDir : PathName := "snapshots".toList

/-- The canonical published path, snapshots/creeper.jpg. -/
def creeperPath : PathName := "snapshots/creeper.jpg".toList

/-- The operations of the publish step of part_002: create the directory,
then write the encoded JPEG directly onto the published path. -/
def publishOps (jpegBuffer : Bytes) : List FsOp :=
  [FsOp.mkdirRecursive snapshotsDir, FsOp.writeFile creeperPath jpegBuffer]

/-- A flat filesystem: association list from path to content (first match wins). -/
abbrev FileSys := List (PathName × Bytes)

/-- Read the content at a path, if present. -/
def readFile (fs : FileSys) (p : PathName) : Option Bytes :=
  (fs.find? (fun e => e.1 == p)).map (fun e => e.2)

/-- Effect of one completed operation on the filesystem. -/
def applyOp (fs : FileSys) : FsOp → FileSys
  | FsOp.mkdirRecursive _ => fs
  | FsOp.writeFile p c => (p, c) :: fs
  | FsOp.rename src dst =>
    match readFile fs src with
    | none => fs
    | some c => (dst, c) :: fs

/-- Contents a reader of `published` can observe while one operation is in
flight: a plain write exposes every prefix of the new content (truncate,
then append); `mkdir` and `rename` expose no intermediate state. -/
def midWriteViews (published : PathName) : FsOp → List (Option Bytes)
  | FsOp.writeFile p c =>
    if p = published then ((List.range (c.length + 1)).map (fun k => some (c.take k))) else []
  | _ => []

/-- All contents a reader of `published` can observe at some instant while the
operation list executes from filesystem `fs`, including the final state. -/
def observedViews (published : PathName) (fs : FileSys) : List FsOp → List (Option Bytes)
  | [] => [readFile fs published]
  | op :: rest =>
    readFile fs published ::
      (midWriteViews published op ++ observedViews published (applyOp fs op) rest)

/-- C1 as stated: the writer writes to a temporary path and then renames it
onto the published path. -/
def usesTempThenRename (ops : List FsOp) (published : PathName) : Prop :=
  ∃ tmp c, tmp ≠ published ∧
    FsOp.writeFile tmp c ∈ ops ∧ FsOp.rename tmp published ∈ ops

/-- Counterexample to C1: the publish step contains no rename at all — it
writes directly onto the published path — and starting from a prior snapshot
`[9, 9]` a reader can observe the truncated content `[1]`, which is neither
the prior complete snapshot nor the new complete snapshot `[1, 2, 3]`. -/
theorem publish_not_atomic_cex :
    ¬ usesTempThenRename (publishOps [1, 2, 3]) creeperPath ∧
    some [1] ∈ observedViews creeperPath [(creeperPath, [9, 9])] (publishOps [1, 2, 3]) ∧
    ([1] : Bytes) ≠ [9, 9] ∧ ([1] : Bytes) ≠ [1, 2, 3] := by
  refine ⟨?_, ?_, by decide, by decide⟩
  · rintro ⟨tmp, c, -, -, hr⟩
    simp [publishOps] at hr
  · simp [observedViews, publishOps, midWriteViews, List.range_succ]

/-- C1 amended: the writer creates the output directory and then writes the
encoded canvas directly onto the canonical published path in place — no
temporary path, no rename.  After the run the published path holds the new
snapshot, but every state a reader can observe during the publish is either
the prior snapshot or some prefix (possibly truncated) of the new one. -/
theorem publish_direct_write (jpegBuffer prior : Bytes) :
    publishOps jpegBuffer =
      [FsOp.mkdirRecursive snapshotsDir, FsOp.writeFile creeperPath jpegBuffer] ∧
    readFile ((publishOps jpegBuffer).foldl applyOp [(creeperPath, prior)]) creeperPath =
      some jpegBuffer ∧
    (∀ v ∈ observedViews creeperPath [(creeperPath, prior)] (publishOps jpegBuffer),
      v = some prior ∨ ∃ k, v = some (jpegBuffer.take k)) := by
  refine ⟨rfl, ?_, ?_⟩
  · simp [publishOps, applyOp, readFile]
  · have hview : observedViews creeperPath [(creeperPath, prior)] (publishOps jpegBuffer) =
        some prior :: some prior ::
          (((List.range (jpegBuffer.length + 1)).map (fun k => some (jpegBuffer.take k))) ++
            [some jpegBuffer]) := by
      simp [observedViews, publishOps, midWriteViews, applyOp, readFile]
    intro v hv
    rw [hview] at hv
    simp only [List.mem_cons, List.mem_append, List.mem_map, List.mem_range,
      List.not_mem_nil, or_false] at hv
    rcases hv with hv | hv | ⟨k, -, hv⟩ | hv
    · left; exact hv
    · left; exact hv
    · right; exact ⟨k, hv.symm⟩
    · right; exact ⟨jpegBuffer.length, by rw [hv]; simp⟩

/-- Witness for C1: publishing `[1, 2, 3]` over prior `[9, 9]` leaves the new
snapshot at the published path. -/
theorem publish_direct_write_witness :
    readFile ((publishOps [1, 2, 3]).foldl applyOp [(creeperPath, [9, 9])]) creeperPath =
      some [1, 2, 3] :=
  (publish_direct_write [1, 2, 3] [9, 9]).2.1

/-! ## SourceFetcher (part_002 lines 99-154)

The per-slot fetch loop is

starting at retries = 2 and success = false: while retries is positive and
success is false it makes one attempt; on success it stops, and on failure
it decrements retries, sleeps 2000 ms when retries remain, and otherwise
draws the placeholder box with its OFFLINE text.

`attemptOk k` tells whether attempt number `k` (0-based) succeeds, i.e.
whether fetch, HTTP status, buffer validation and decoding all pass. -/

/-- Outcome of the fetch loop for one slot: whether it succeeded, how many
attempts were issued, and the sleeps (ms) taken between attempts. -/
structure FetchOutcome where
  success : Bool
  attempts : Nat
  delays : List Nat
deriving DecidableEq, Repr

/-- The while loop, with state (remaining retries, attempts already made).
A failed attempt decrements the counter and sleeps 2000 ms only when
retries remain. -/
def fetchLoop (attemptOk : Nat → Bool) : Nat → Nat → FetchOutcome
  | 0, made => ⟨false, made, []⟩
  | r + 1, made =>
    if attemptOk made then ⟨true, made + 1, []⟩
    else
      let rest := fetchLoop attemptOk r (made + 1)
      ⟨rest.success, rest.attempts, if 0 < r then 2000 :: rest.delays else rest.delays⟩

/-- The whole fetch sequence of one slot: the loop entered with `retries = 2`. -/
def fetchWithRetries (attemptOk : Nat → Bool) : FetchOutcome :=
  fetchLoop attemptOk 2 0

/-- What one grid cell holds after the slot loop runs. -/
inductive CellContent where
  | background
  | live
  | placeholder
deriving DecidableEq, Repr

/-- A configured camera entry from the CAMERAS environment list. -/
structure Camera where
  url : List Char
  location : List Char

/-- Cell outcome for slot `i` in part_002 (lines 91-155): a missing entry is
skipped (`if (!cam) continue`), leaving the background; otherwise the fetch
loop decides live versus placeholder. -/
def slotContent (cams : List Camera) (attemptOk : Nat → Bool) (i : Nat) : CellContent :=
  match cams[i]? with
  | none => CellContent.background
  | some _ =>
    if (fetchWithRetries attemptOk).success then CellContent.live else CellContent.placeholder

/-- The four cells of one cycle (`for (let i = 0; i < 4; i++)`), with
`attemptOk i k` the outcome of attempt `k` for slot `i`. -/
def gridCells (cams : List Camera) (attemptOk : Nat → Nat → Bool) : List CellContent :=
  (List.range 4).map (fun i => slotContent cams (attemptOk i) i)

/-- Counterexample to C5: against a source that fails every attempt the loop
issues exactly 2 attempts in total — only 1 additional attempt after the
first failure, not 2 — and a source that would succeed on a third attempt is
still reported as failed, because no third attempt is ever issued. -/
theorem retry_two_total_cex :
    (fetchWithRetries (fun _ => false)).attempts = 2 ∧
    (fetchWithRetries (fun k => decide (k = 1))).success = true ∧
    (fetchWithRetries (fun k => decide (k = 2))).success = false := by
  refine ⟨?_, ?_, ?_⟩ <;> decide

/-- C5 amended: after a failed attempt the fetcher retries at most 1
additional time (2 attempts in total), sequentially, sleeping a fixed
2000 ms between the two attempts; exhausting both attempts yields the
placeholder outcome for that slot, handled locally inside the loop, never a
fault escaping the slot. -/
theorem retry_bounded_sequential (attemptOk : Nat → Bool) :
    (fetchWithRetries attemptOk).attempts ≤ 2 ∧
    ((fetchWithRetries attemptOk).success = false →
      (fetchWithRetries attemptOk).attempts = 2 ∧
      (fetchWithRetries attemptOk).delays = [2000]) ∧
    ((fetchWithRetries attemptOk).success = true →
      (fetchWithRetries attemptOk).delays.length + 1 = (fetchWithRetries attemptOk).attempts) ∧
    (∀ (cams : List Camera) (i : Nat), i < cams.length →
      (fetchWithRetries attemptOk).success = false →
      slotContent cams attemptOk i = CellContent.placeholder) := by
  have hcell : ∀ (cams : List Camera) (i : Nat), i < cams.length →
      (fetchWithRetries attemptOk).success = false →
      slotContent cams attemptOk i = CellContent.placeholder := by
    intro cams i hi hfail
    have hsome : ∃ cam, cams[i]? = some cam := by
      rcases List.getElem?_eq_some_iff.mpr ⟨hi, rfl⟩ with h
      exact ⟨cams[i], h⟩
    rcases hsome with ⟨cam, hcam⟩
    simp [slotContent, hcam, hfail]
  rcases h0 : attemptOk 0 <;> rcases h1 : attemptOk 1 <;>
    refine ⟨?_, ?_, ?_, hcell⟩ <;>
      simp_all [fetchWithRetries, fetchLoop]

/-- Witness for C5: with every attempt failing, the loop stops after 2
attempts with one 2000 ms sleep in between, and a configured slot gets the
placeholder. -/
theorem retry_bounded_sequential_witness :
    (fetchWithRetries (fun _ => false)).attempts = 2 ∧
    (fetchWithRetries (fun _ => false)).delays = [2000] ∧
    slotContent [⟨"u".toList, "loc".toList⟩] (fun _ => false) 0 = CellContent.placeholder :=
  ⟨((retry_bounded_sequential (fun _ => false)).2.1 (by decide)).1,
   ((retry_bounded_sequential (fun _ => false)).2.1 (by decide)).2,
   (retry_bounded_sequential (fun _ => false)).2.2.2 [⟨"u".toList, "loc".toList⟩] 0
     (by decide) (by decide)⟩

/-- Counterexample to C2: with no cameras configured and every attempt
failing, the slot loop leaves every cell as untouched black background —
a slot with no configured camera entry is skipped (`if (!cam) continue`),
not given a placeholder. -/
theorem missing_camera_black_cex :
    CellContent.background ∈ gridCells [] (fun _ _ => false) := by decide

/-- C2 amended: exactly four slots are iterated every cycle, and every slot
whose index has a configured camera entry ends populated — live on fetch
success, placeholder on failure — but a slot with no configured camera entry
is skipped and its cell stays untouched black background. -/
theorem four_slots_populated_if_configured (cams : List Camera)
    (attemptOk : Nat → Nat → Bool) :
    (gridCells cams attemptOk).length = 4 ∧
    (∀ i, i < cams.length →
      slotContent cams (attemptOk i) i ≠ CellContent.background) ∧
    (∀ i, cams.length ≤ i →
      slotContent cams (attemptOk i) i = CellContent.background) := by
  refine ⟨by simp [gridCells], ?_, ?_⟩
  · intro i hi
    have hcam : cams[i]? = some cams[i] := List.getElem?_eq_some_iff.mpr ⟨hi, rfl⟩
    by_cases hs : (fetchWithRetries (attemptOk i)).success <;>
      simp [slotContent, hcam, hs]
  · intro i hi
    have hnone : cams[i]? = none := by
      simp [List.getElem?_eq_none_iff, hi]
    simp [slotContent, hnone]

/-- Witness for C2: with one camera whose fetch fails, slot 0 is a
placeholder (populated) while slot 1, which has no entry, stays background. -/
theorem four_slots_populated_if_configured_witness :
    slotContent [⟨"u".toList, "loc".toList⟩] ((fun _ _ => false) 0) 0 ≠
      CellContent.background ∧
    slotContent [⟨"u".toList, "loc".toList⟩] ((fun _ _ => false) 1) 1 =
      CellContent.background :=
  ⟨(four_slots_populated_if_configured [⟨"u".toList, "loc".toList⟩]
      (fun _ _ => false)).2.1 0 (by decide),
   (four_slots_populated_if_configured [⟨"u".toList, "loc".toList⟩]
      (fun _ _ => false)).2.2 1 (by decide)⟩

/-! ## PostProcessor pixel transforms

part_002 lines 157-167 average the three channels:
`const avg = (pix[i] + pix[i+1] + pix[i+2]) / 3`, while part_001 lines 61-64
and the first part_003 variant lines 63-72 use the luma weighting
`0.299*r + 0.587*g + 0.114*b`.  Channel values are modelled as exact
rationals. -/

/-- An RGBA pixel with rational channel values. -/
structure Pixel where
  r : ℚ
  g : ℚ
  b : ℚ
  a : ℚ
deriving DecidableEq

/-- Grayscale step of part_002: replace each channel by the arithmetic mean. -/
def grayscaleAvg (p : Pixel) : Pixel :=
  let avg := (p.r + p.g + p.b) / 3
  ⟨avg, avg, avg, p.a⟩

/-- Grayscale step of part_001 and the first part_003 variant: luma weights. -/
def grayscaleLuma (p : Pixel) : Pixel :=
  let lum := 0.299 * p.r + 0.587 * p.g + 0.114 * p.b
  ⟨lum, lum, lum, p.a⟩

/-- The whole-canvas grayscale pass of part_002 over the pixel array. -/
def grayscalePass (pix : List Pixel) : List Pixel :=
  pix.map grayscaleAvg

/-- Counterexample to C4: on the pure-red pixel the grayscale step of
part_002 produces 85 (the arithmetic mean), not the luma value 76.245 that
the formula of the claim gives, so the two variants disagree and part_002 does
not use luma weighting. -/
theorem grayscale_not_luma_cex :
    (grayscaleAvg ⟨255, 0, 0, 255⟩).r = 85 ∧
    (grayscaleLuma ⟨255, 0, 0, 255⟩).r = 76.245 ∧
    grayscaleAvg ⟨255, 0, 0, 255⟩ ≠ grayscaleLuma ⟨255, 0, 0, 255⟩ := by
  refine ⟨by norm_num [grayscaleAvg], by norm_num [grayscaleLuma], ?_⟩
  intro h
  have := congrArg Pixel.r h
  norm_num [grayscaleAvg, grayscaleLuma] at this

/-- C4 amended: after the grayscale step every pixel has equal red, green and
blue channels and an unchanged alpha; the replacement value is the
arithmetic mean `(r+g+b)/3` in part_002, while part_001 and the first
part_003 variant use the luma weighting `0.299r + 0.587g + 0.114b`. -/
theorem grayscale_channels_equal :
    (∀ (pix : List Pixel) (q : Pixel), q ∈ grayscalePass pix →
      q.r = q.g ∧ q.g = q.b) ∧
    (∀ p : Pixel, grayscaleAvg p =
      ⟨(p.r + p.g + p.b) / 3, (p.r + p.g + p.b) / 3, (p.r + p.g + p.b) / 3, p.a⟩) ∧
    (∀ p : Pixel, grayscaleLuma p =
      ⟨0.299 * p.r + 0.587 * p.g + 0.114 * p.b,
       0.299 * p.r + 0.587 * p.g + 0.114 * p.b,
       0.299 * p.r + 0.587 * p.g + 0.114 * p.b, p.a⟩) := by
  refine ⟨?_, fun p => rfl, fun p => rfl⟩
  intro pix q hq
  rcases List.mem_map.mp hq with ⟨p, -, hp⟩
  rw [← hp]
  exact ⟨rfl, rfl⟩

/-- Witness for C4: the image of the red-green test pixel under the part_002
pass has equal channels. -/
theorem grayscale_channels_equal_witness :
    (grayscaleAvg ⟨200, 50, 0, 255⟩).r = (grayscaleAvg ⟨200, 50, 0, 255⟩).g ∧
    (grayscaleAvg ⟨200, 50, 0, 255⟩).g = (grayscaleAvg ⟨200, 50, 0, 255⟩).b :=
  grayscale_channels_equal.1 [⟨200, 50, 0, 255⟩] (grayscaleAvg ⟨200, 50, 0, 255⟩)
    (List.mem_map.mpr ⟨⟨200, 50, 0, 255⟩, List.mem_singleton.mpr rfl, rfl⟩)

/-! ## Whole-canvas processing order (part_002 lines 79-213, part_003 lines 19-110)

Both snapshotGrid variants perform, in source order: fill black, the slot
loop (live tile or placeholder fill plus its status text), grayscale, green
tint, location labels, the watermark overlay, then encode and save. -/

/-- The successive whole-canvas operations of `snapshotGrid`. -/
inductive Step where
  | fillBackground
  | drawTile
  | grayscale
  | tint
  | locationLabels
  | watermark
  | encodeAndSave
deriving DecidableEq, BEq, Repr

/-- The order in which `snapshotGrid` performs its steps; the placeholder
fill and its OFFLINE text happen inside `drawTile` (the slot loop). -/
def snapshotSteps : List Step :=
  [Step.fillBackground, Step.drawTile, Step.grayscale, Step.tint,
   Step.locationLabels, Step.watermark, Step.encodeAndSave]

/-- Position of a step in the source order. -/
def stepIdx (s : Step) : Nat := snapshotSteps.indexOf s

/-- The 10 percent green tint over an opaque canvas:
`out = src * 0.1 + dst * 0.9` per channel with source `#00FF00`. -/
def tintBlend (p : Pixel) : Pixel :=
  ⟨0.9 * p.r, 0.1 * 255 + 0.9 * p.g, 0.9 * p.b, p.a⟩

/-- Opaque black, the initial fill. -/
def blackPixel : Pixel := ⟨0, 0, 0, 255⟩

/-- Opaque pure green `#00FF00`, the label and watermark fill style. -/
def greenPixel : Pixel := ⟨0, 255, 0, 255⟩

/-- A canvas of rational RGBA pixels. -/
def PixCanvas : Type := Nat × Nat → Pixel

/-- Semantics of one step: regions give which pixels the tile content, the
location labels and the watermark touch. -/
def applyStep (tileRegion labelRegion wmRegion : Nat × Nat → Bool)
    (tile : PixCanvas) : Step → PixCanvas → PixCanvas
  | Step.fillBackground, _ => fun _ => blackPixel
  | Step.drawTile, c => fun q => if tileRegion q then tile q else c q
  | Step.grayscale, c => fun q => grayscaleAvg (c q)
  | Step.tint, c => fun q => tintBlend (c q)
  | Step.locationLabels, c => fun q => if labelRegion q then greenPixel else c q
  | Step.watermark, c => fun q => if wmRegion q then greenPixel else c q
  | Step.encodeAndSave, c => c

/-- The full post-processing pipeline in source order. -/
def runPipeline (tileRegion labelRegion wmRegion : Nat × Nat → Bool)
    (tile : PixCanvas) : PixCanvas :=
  snapshotSteps.foldl (fun c s => applyStep tileRegion labelRegion wmRegion tile s c)
    (fun _ => blackPixel)

/-- Counterexample to C6: the location labels are drawn after the grayscale
step (and after the tint), not before it as the claim orders them; a label
pixel outside the watermark ends pure green — with unequal red and green
channels — so the labels are not grayscaled or tinted. -/
theorem labels_after_grayscale_cex :
    ¬ stepIdx Step.locationLabels < stepIdx Step.grayscale ∧
    runPipeline (fun _ => false) (fun _ => true) (fun _ => false)
      (fun _ => blackPixel) (0, 0) = greenPixel ∧
    greenPixel.r ≠ greenPixel.g := by
  refine ⟨by decide, ?_, by norm_num [greenPixel]⟩
  simp [runPipeline, snapshotSteps, applyStep]

/-- C6 amended: the order is fixed for every run — placeholder text is drawn
inside the slot loop before grayscale, then grayscale, then the tint, then
the location labels (after the tint, so labels stay pure green and are
neither grayscaled nor tinted), and the watermark last, so a watermark pixel
is green regardless of the tile content. -/
theorem pipeline_order_fixed :
    (stepIdx Step.drawTile < stepIdx Step.grayscale ∧
     stepIdx Step.grayscale < stepIdx Step.tint ∧
     stepIdx Step.tint < stepIdx Step.locationLabels ∧
     stepIdx Step.locationLabels < stepIdx Step.watermark ∧
     stepIdx Step.watermark < stepIdx Step.encodeAndSave) ∧
    (∀ tileRegion labelRegion wmRegion tile q, wmRegion q = true →
      runPipeline tileRegion labelRegion wmRegion tile q = greenPixel) ∧
    (∀ tileRegion labelRegion wmRegion tile q, labelRegion q = true →
      wmRegion q = false →
      runPipeline tileRegion labelRegion wmRegion tile q = greenPixel) := by
  refine ⟨by decide, ?_, ?_⟩
  · intro tR lR wR tile q hw
    simp [runPipeline, snapshotSteps, applyStep, hw]
  · intro tR lR wR tile q hl hw
    simp [runPipeline, snapshotSteps, applyStep, hl, hw]

/-- Witness for C6: a watermark pixel is green whatever tile content was
drawn under it. -/
theorem pipeline_order_fixed_witness :
    runPipeline (fun _ => true) (fun _ => false) (fun _ => true)
      (fun _ => ⟨1, 2, 3, 255⟩) (5, 5) = greenPixel :=
  pipeline_order_fixed.2.1 (fun _ => true) (fun _ => false) (fun _ => true)
    (fun _ => ⟨1, 2, 3, 255⟩) (5, 5) rfl

/-! ## Watermark placement

The first part_003 variant (lines 95-100) sets textAlign to center and
textBaseline to middle and fills the CREEPER text at (SIZE/2, SIZE/2).
part_001 (lines 68-79) writes an SVG whose text element carries
`x = SIZE/3`, `y = SIZE/3`, `text-anchor = "middle"` and
`dominant-baseline = "middle"`. -/

/-- A text draw call: anchor point plus the two centering flags. -/
structure TextAnchor where
  x : ℚ
  y : ℚ
  hCenter : Bool
  vMiddle : Bool
deriving DecidableEq

/-- The CREEPER watermark call of the first part_003 variant. -/
def watermarkAnchorApp : TextAnchor :=
  ⟨(SIZE : ℚ) / 2, (SIZE : ℚ) / 2, true, true⟩

/-- The CREEPER text element of the SVG written by part_001. -/
def watermarkAnchorSvg : TextAnchor :=
  ⟨(SIZE : ℚ) / 3, (SIZE : ℚ) / 3, true, true⟩

/-- The canvas midpoint. -/
def canvasMidpoint : ℚ × ℚ := ((SIZE : ℚ) / 2, (SIZE : ℚ) / 2)

/-- Counterexample to C8: the SVG variant anchors the watermark at
(S/3, S/3), which is not the canvas midpoint, so midpoint anchoring is not
applied uniformly wherever the watermark is placed. -/
theorem watermark_svg_anchor_cex :
    (watermarkAnchorSvg.x, watermarkAnchorSvg.y) ≠ canvasMidpoint := by
  intro h
  have := congrArg Prod.fst h
  norm_num [watermarkAnchorSvg, canvasMidpoint, SIZE] at this

/-- C8 amended: both watermark implementations use the single
horizontal-center, vertical-middle anchor convention, and the part_003
variant anchors at the canvas midpoint (S/2, S/2); but the SVG written by
part_001 anchors at (S/3, S/3), so the midpoint placement is not uniform
across the variants. -/
theorem watermark_anchor_convention :
    (watermarkAnchorApp.x, watermarkAnchorApp.y) = canvasMidpoint ∧
    watermarkAnchorApp.hCenter = true ∧ watermarkAnchorApp.vMiddle = true ∧
    watermarkAnchorSvg.hCenter = true ∧ watermarkAnchorSvg.vMiddle = true ∧
    watermarkAnchorSvg.x = (SIZE : ℚ) / 3 ∧ watermarkAnchorSvg.y = (SIZE : ℚ) / 3 :=
  ⟨rfl, rfl, rfl, rfl, rfl, rfl, rfl⟩

/-! ## TileRenderer center crop (part_002 lines 126-129, part_003 lines 45-55)

`side = Math.min(w, h)`, `sx = (w - side)/2`, `sy = (h - side)/2`, then
`ctx.drawImage(img, sx, sy, side, side, dx, dy, inner, inner)`. -/

/-- The arguments of the `drawImage` call: source rectangle then destination
rectangle. -/
structure DrawImageArgs where
  sx : ℚ
  sy : ℚ
  sw : ℚ
  sh : ℚ
  dx : ℚ
  dy : ℚ
  dw : ℚ
  dh : ℚ
deriving DecidableEq

/-- The call drawing a decoded `w × h` image into slot `i` with border `b`. -/
def drawTileArgs (b w h i : Nat) : DrawImageArgs :=
  let side : Nat := min w h
  { sx := ((w : ℚ) - side) / 2
    sy := ((h : ℚ) - side) / 2
    sw := side
    sh := side
    dx := ((innerRect b i).x : ℚ)
    dy := ((innerRect b i).y : ℚ)
    dw := ((innerRect b i).w : ℚ)
    dh := ((innerRect b i).h : ℚ) }

/-- C9: the tile renderer center-crops a square of side `min(w, h)` at
`sx = (w - side)/2`, `sy = (h - side)/2` — a square lying inside the source
image with equal margins on the cropped axis — and maps it onto exactly the
inner region of the cell, itself a square, so the square crop fills the square
destination and the aspect ratio is preserved by construction. -/
theorem center_crop_correct (b w h i : Nat) :
    (drawTileArgs b w h i).sw = ((min w h : Nat) : ℚ) ∧
    (drawTileArgs b w h i).sw = (drawTileArgs b w h i).sh ∧
    (drawTileArgs b w h i).sx = ((w : ℚ) - ((min w h : Nat) : ℚ)) / 2 ∧
    (drawTileArgs b w h i).sy = ((h : ℚ) - ((min w h : Nat) : ℚ)) / 2 ∧
    0 ≤ (drawTileArgs b w h i).sx ∧
    (drawTileArgs b w h i).sx + (drawTileArgs b w h i).sw ≤ (w : ℚ) ∧
    0 ≤ (drawTileArgs b w h i).sy ∧
    (drawTileArgs b w h i).sy + (drawTileArgs b w h i).sh ≤ (h : ℚ) ∧
    (drawTileArgs b w h i).sx = (w : ℚ) - ((drawTileArgs b w h i).sx + (drawTileArgs b w h i).sw) ∧
    (drawTileArgs b w h i).sy = (h : ℚ) - ((drawTileArgs b w h i).sy + (drawTileArgs b w h i).sh) ∧
    (drawTileArgs b w h i).dx = ((innerRect b i).x : ℚ) ∧
    (drawTileArgs b w h i).dy = ((innerRect b i).y : ℚ) ∧
    (drawTileArgs b w h i).dw = ((innerRect b i).w : ℚ) ∧
    (drawTileArgs b w h i).dh = (drawTileArgs b w h i).dw := by
  have hw : ((min w h : Nat) : ℚ) ≤ (w : ℚ) := by
    exact_mod_cast Nat.min_le_left w h
  have hh : ((min w h : Nat) : ℚ) ≤ (h : ℚ) := by
    exact_mod_cast Nat.min_le_right w h
  refine ⟨rfl, rfl, rfl, rfl, ?_, ?_, ?_, ?_, ?_, ?_, rfl, rfl, rfl, rfl⟩ <;>
    simp only [drawTileArgs] <;> ring_nf <;> linarith

/-! ## Freshness-token substitution

Every variant builds the request URL with
`cam.url.replace(token, ts)` with the literal token COUNTER (part_002
line 105, part_003 line 37,
part_001 line 41, src/app.js line 58).  With a string pattern, the
JavaScript `String.prototype.replace` substitutes only the first match and
leaves the rest of the string verbatim; `replaceFirst` below is that
semantics over character lists. -/

/-- Whether `pat` occurs at the head of the second list. -/
def leadsWith : List Char → List Char → Bool
  | [], _ => true
  | _ :: _, [] => false
  | a :: as, b :: bs => a == b && leadsWith as bs

/-- First-match replacement: scan left to right, replace the first position
where `pat` matches, keep everything after it unchanged. -/
def replaceFirst (pat rep : List Char) : List Char → List Char
  | [] => []
  | c :: rest =>
    if leadsWith pat (c :: rest) then rep ++ (c :: rest).drop pat.length
    else c :: replaceFirst pat rep rest

/-- The literal freshness token COUNTER. -/
def counterToken : List Char := "COUNTER".toList

/-- The call replacing the COUNTER token of the camera URL by `ts`. -/
def substituteCounter (url ts : List Char) : List Char :=
  replaceFirst counterToken ts url

lemma leadsWith_self_append : ∀ p s : List Char, leadsWith p (p ++ s) = true
  | [], _ => rfl
  | c :: cs, s => by
    simp only [List.cons_append, leadsWith, beq_self_eq_true, Bool.true_and]
    exact leadsWith_self_append cs s

lemma replaceFirst_head (pat rep s : List Char) (hne : pat ≠ []) :
    replaceFirst pat rep (pat ++ s) = rep ++ s := by
  rcases pat with _ | ⟨c, cs⟩
  · exact absurd rfl hne
  · have hl := leadsWith_self_append (c :: cs) s
    have hd : ((c :: cs) ++ s).drop (c :: cs).length = s := List.drop_left _ _
    rw [List.cons_append] at hl hd
    show replaceFirst (c :: cs) rep (c :: (cs ++ s)) = rep ++ s
    simp [replaceFirst, hl, hd]

/-- C10: the freshness-token substitution replaces only the first occurrence
of the COUNTER token.  If the token occurs at position `a.length` of the template
and at no earlier position, the substitution replaces exactly that
occurrence and leaves the whole tail `s` — including any later occurrence of
the token — verbatim in the requested URL. -/
theorem counter_first_occurrence (a s rep : List Char)
    (hfirst : ∀ i, i < a.length →
      leadsWith counterToken ((a ++ (counterToken ++ s)).drop i) = false) :
    substituteCounter (a ++ (counterToken ++ s)) rep = a ++ (rep ++ s) := by
  induction a with
  | nil =>
    simp only [List.nil_append, substituteCounter]
    exact replaceFirst_head counterToken rep s (by decide)
  | cons c a ih =>
    have h0 : leadsWith counterToken (c :: (a ++ (counterToken ++ s))) = false := by
      have := hfirst 0 (by simp)
      simpa using this
    simp only [substituteCounter, List.cons_append, replaceFirst]
    rw [if_neg (by simp [h0])]
    simp only [substituteCounter] at ih
    refine congrArg (c :: ·) (ih ?_)
    intro i hi
    have h := hfirst (i + 1) (by simpa using Nat.succ_lt_succ hi)
    rw [List.cons_append, List.drop_succ_cons] at h
    exact h

/-- Witness for C10: in `t=COUNTER&u=COUNTER` only the first token is
replaced by `123`; the second `COUNTER` stays verbatim. -/
theorem counter_first_occurrence_witness :
    substituteCounter ("t=".toList ++ (counterToken ++ "&u=COUNTER".toList))
      "123".toList = "t=".toList ++ ("123".toList ++ "&u=COUNTER".toList) :=
  counter_first_occurrence "t=".toList "&u=COUNTER".toList "123".toList (by decide)

/-- Witness for C9: a 640 x 480 source is cropped to the centered 480-square
(sx = 80) and mapped onto the inner region of slot 0. -/
theorem center_crop_correct_witness :
    (drawTileArgs 8 640 480 0).sw = 480 ∧ (drawTileArgs 8 640 480 0).sx = 80 := by
  have h1 := (center_crop_correct 8 640 480 0).1
  have h2 := (center_crop_correct 8 640 480 0).2.2.1
  norm_num at h1 h2
  exact ⟨h1, h2⟩
